import Mathlib

/-!
# Hockey League Simulator — verification of spec claims

Shallow embedding of the dashboard helpers in `src/web/src/App.tsx` and,
where the backend engine is not part of the supplied source, models built
from the specification (each such definition is marked
`Modelled from the spec:` in its doc comment).

JavaScript strings are modelled as Lean `String`/`List Char`; JS `number`
values that the claims use only for comparison are modelled as `Int` or
`Nat`; optional fields (`x?: T`, `T | null`) are modelled as `Option`.
-/

namespace HockeySim

/-! ## String helpers (models of JS `trim`, `toUpperCase`, `includes`, `indexOf`) -/

/-- Model of JS `String.prototype.trim`: drop leading and trailing whitespace. -/
def jsTrimList (s : List Char) : List Char :=
  ((s.dropWhile Char.isWhitespace).reverse.dropWhile Char.isWhitespace).reverse

/-- Model of JS `trim` on `String`. -/
def jsTrim (s : String) : String :=
  ⟨jsTrimList s.data⟩

/-- `matchesAt sub s`: the character list `sub` occurs at the head of `s`. -/
def matchesAt : List Char → List Char → Bool
  | [], _ => true
  | _ :: _, [] => false
  | a :: as, b :: bs => a == b && matchesAt as bs

/-- `hasSub s sub`: `sub` occurs contiguously somewhere in `s`
(model of JS `String.prototype.includes`). -/
def hasSub : List Char → List Char → Bool
  | [], sub => sub.isEmpty
  | c :: rest, sub => matchesAt sub (c :: rest) || hasSub rest sub

/-- Model of JS `s.includes(sub)` on `String`. -/
def strContains (s sub : String) : Bool :=
  hasSub s.data sub.data

/-- Model of JS `String.prototype.toUpperCase` (character-wise upper-casing). -/
def jsToUpper (s : String) : String :=
  ⟨s.data.map Char.toUpper⟩

/-- Model of JS `s.indexOf(c)` for a single character: index of the first
occurrence, or `-1` when absent. -/
def jsIndexOfChar : List Char → Char → Int
  | [], _ => -1
  | a :: rest, c =>
    if a == c then 0
    else
      let r := jsIndexOfChar rest c
      if r < 0 then -1 else r + 1

/-! ## `formatScheduleResult` (App.tsx lines 1043–1057) — claim C5 -/

/-- The shape of the schedule game argument of `formatScheduleResult`:
`home`, `away`, optional `home_goals` / `away_goals`, optional `overtime`. -/
structure ScheduleGame where
  home : String
  away : String
  home_goals : Option Int
  away_goals : Option Int
  overtime : Option Bool

/-- Embedding of `formatScheduleResult(game, teamName)`:
returns `"-"` unless both goal totals are numbers; otherwise formats
`"W gf-ga"` / `"L gf-ga"` (with `" OT"` suffix) from the perspective of
`teamName` (`W` iff the team's goals strictly exceed the opponent's). -/
def formatScheduleResult (game : ScheduleGame) (teamName : String) : String :=
  match game.home_goals, game.away_goals with
  | some hg, some ag =>
    let isHome := game.home == teamName
    let gf := if isHome then hg else ag
    let ga := if isHome then ag else hg
    let wl := if gf > ga then "W" else "L"
    let ot := if game.overtime.getD false then " OT" else ""
    wl ++ " " ++ toString gf ++ "-" ++ toString ga ++ ot
  | _, _ => "-"

/-! ## `needLabel` / `needKeys` (App.tsx lines 1059–1075) — claim C7 -/

/-- The `TeamNeeds` payload, with `scores: Record<string, number>` modelled
as an association list (`Object.keys` order is insertion order). -/
structure TeamNeeds where
  team : String
  scores : List (String × Int)

/-- The six need-category keys, in the order the dashboard falls back to. -/
def defaultNeedKeys : List String :=
  ["top6_f", "top4_d", "starter_g", "depth_f", "depth_d", "cap_relief"]

/-- The label map inside `needLabel`. -/
def needLabelMap : List (String × String) :=
  [("top6_f", "Top-6 F"), ("top4_d", "Top-4 D"), ("starter_g", "Starter G"),
   ("depth_f", "Depth F"), ("depth_d", "Depth D"), ("cap_relief", "Cap Relief")]

/-- Embedding of `needLabel(key)`: `map[key] ?? key`. -/
def needLabel (key : String) : String :=
  (needLabelMap.lookup key).getD key

/-- Embedding of `needKeys(needs)`: the keys of `needs?.scores ?? {}` when
non-empty, otherwise the six default keys. -/
def needKeys (needs : Option TeamNeeds) : List String :=
  let keys := ((needs.map TeamNeeds.scores).getD []).map Prod.fst
  if keys.length > 0 then keys else defaultNeedKeys

/-! ## `injuryStatusKey` / chip rendering (App.tsx lines 1077–1099) — claim C8 -/

/-- Embedding of `injuryStatusKey(status, injured)`. -/
def injuryStatusKey (status : Option String) (injured : Option Bool) : String :=
  let s := jsToUpper (jsTrim (status.getD ""))
  if strContains s "DTD" then "dtd"
  else if !(injured.getD false) then "none"
  else if strContains s "SEASON" then "season"
  else if strContains s "LTIR" then "ltir"
  else "ir"

/-- Embedding of `injuryStatusLabel(status, injured)`. -/
def injuryStatusLabel (status : Option String) (injured : Option Bool) : String :=
  let key := injuryStatusKey status injured
  if key == "dtd" then "DTD"
  else if key == "ltir" then "LTIR"
  else if key == "season" then "SEASON"
  else if key == "ir" then "IR"
  else ""

/-- Embedding of `renderInjuryChip(status, injured)`: `none` models the JSX
`null` (no chip), `some l` models a rendered chip with label `l`. -/
def renderInjuryChip (status : Option String) (injured : Option Bool) : Option String :=
  let key := injuryStatusKey status injured
  if key == "none" then none
  else some (injuryStatusLabel status injured)

/-! ## `topStarName` (App.tsx lines 1036–1041) and `parseStarSummary`
(App.tsx lines 3789–3799) — claim C10 -/

/-- Embedding of `topStarName(summary)`: trim, and cut just after the first
`')'` when it occurs at a positive index, else return the trimmed text. -/
def topStarName (summary : Option String) : String :=
  let text := jsTrim (summary.getD "")
  let closeParen := jsIndexOfChar text.data ')'
  if closeParen > 0 then ⟨text.data.take (closeParen.toNat + 1)⟩ else text

/-- Result record of `parseStarSummary`. -/
structure StarSummaryParts where
  playerLine : String
  statLine : String

/-- Embedding of `parseStarSummary(summary)`: same cut as `topStarName`,
with the remainder (re-trimmed) as the stat line. -/
def parseStarSummary (summary : Option String) : StarSummaryParts :=
  let text := jsTrim (summary.getD "")
  let closeParen := jsIndexOfChar text.data ')'
  if closeParen > 0 then
    { playerLine := ⟨text.data.take (closeParen.toNat + 1)⟩,
      statLine := jsTrim ⟨text.data.drop (closeParen.toNat + 1)⟩ }
  else
    { playerLine := text, statLine := "" }

/-! ## Call-up guard (App.tsx lines 956 and 3044–3052) — claim C2 -/

/-- A row of the minor-league table on the call-ups page. -/
structure MinorRow where
  name : String
  injured : Bool
deriving DecidableEq

/-- The parts of the `/callups` payload the guard reads
(`active_count` and `max_active` are required fields of the payload; the
payload itself may still be absent, i.e. `callupsData` is `null`). -/
structure CallupsPayload where
  active_count : Nat
  max_active : Nat
  minors : List MinorRow
deriving DecidableEq

/-- Embedding of
`isActiveRosterFull = (callupsData?.active_count ?? 0) >= (callupsData?.max_active ?? 22)`. -/
def isActiveRosterFull (callupsData : Option CallupsPayload) : Bool :=
  decide (((callupsData.map CallupsPayload.active_count).getD 0) ≥
    ((callupsData.map CallupsPayload.max_active).getD 22))

/-- Embedding of the Call Up button guard
`disabled={r.injured || isActiveRosterFull}`. -/
def callUpDisabled (callupsData : Option CallupsPayload) (r : MinorRow) : Bool :=
  r.injured || isActiveRosterFull callupsData

/-- Errors of the Roster & Cap Compliance Manager relevant to promotion. -/
inductive RosterComplianceError where
  | headcount
  | injuredBeyondRecall
deriving DecidableEq

/-- A rostered player as the promotion check sees him: name plus whether he
is injured beyond recall. -/
structure RosterPlayer where
  name : String
  injuredBeyondRecall : Bool
deriving DecidableEq

/-- A team's active and minor rosters plus the configured active maximum. -/
structure RosterTeam where
  active : List RosterPlayer
  minors : List RosterPlayer
  maxActive : Nat
deriving DecidableEq

/-- Modelled from the spec: the backend `promote(team, player)` operation of
the Roster & Cap Compliance Manager (not part of the supplied source) —
"Each operation validates: target roster under active-roster max
(promotion) … and that the player is not already injured beyond recall for
promotion. On rule violation, fails with a RosterCompliance error …
rather than partially applying the move." -/
def promote (team : RosterTeam) (player : RosterPlayer) :
    Except RosterComplianceError RosterTeam :=
  if team.active.length ≥ team.maxActive then .error .headcount
  else if player.injuredBeyondRecall then .error .injuredBeyondRecall
  else .ok { team with
    active := team.active ++ [player],
    minors := team.minors.filter (fun p => p.name != player.name) }

/-! ## Trade proposal (App.tsx lines 781–796 and 1397–1430) — claim C3

The evaluator itself is backend code not in the supplied source; it is
modelled from spec §4.6. Net values are modelled as `Int` (the dashboard's
`toFixed(2)` decimal rendering is modelled by `toString`). -/

/-- One side's evaluation as carried in `TradeProposalResult`
(`net_value`, `min_net`). -/
structure SideEval where
  net_value : Int
  min_net : Int
deriving DecidableEq

/-- The `TradeProposalResult` payload shape consumed by `proposeTrade`. -/
structure TradeProposalResult where
  ok : Bool
  reason : Option String
  user_eval : Option SideEval
  partner_eval : Option SideEval
deriving DecidableEq

/-- Modelled from the spec: the Trade Valuation evaluation of a proposed
give/receive pair — "compare against a minimum-acceptable-net threshold;
the trade executes only if both sides clear their respective thresholds",
with a reason naming the failing side on rejection. -/
def evaluateProposal (userEval partnerEval : SideEval) : TradeProposalResult :=
  if userEval.net_value < userEval.min_net then
    { ok := false, reason := some "proposing_side_below_min",
      user_eval := some userEval, partner_eval := some partnerEval }
  else if partnerEval.net_value < partnerEval.min_net then
    { ok := false, reason := some "partner_side_below_min",
      user_eval := some userEval, partner_eval := some partnerEval }
  else
    { ok := true, reason := none,
      user_eval := some userEval, partner_eval := some partnerEval }

/-- The rosters a trade exchanges players between. -/
structure TradeState where
  userRoster : List String
  partnerRoster : List String
deriving DecidableEq

/-- Swapping the two players between the rosters. -/
def applyTrade (st : TradeState) (give recv : String) : TradeState :=
  { userRoster := recv :: st.userRoster.filter (fun n => n != give),
    partnerRoster := give :: st.partnerRoster.filter (fun n => n != recv) }

/-- Modelled from the spec: proposal resolution — "in all cases the trade
is rejected wholesale, never partially applied": the rosters change only
when the evaluation returns `ok`. -/
def resolveProposal (st : TradeState) (userEval partnerEval : SideEval)
    (give recv : String) : TradeState × TradeProposalResult :=
  let result := evaluateProposal userEval partnerEval
  if result.ok then (applyTrade st give recv, result) else (st, result)

/-- Embedding of the rejection branch of `proposeTrade` (App.tsx
1407–1420): the surfaced error is `"Trade rejected: " + reason + explain`,
where `reason` defaults to `"trade_rejected"` and `explain` shows the
partner's net value versus its minimum exactly when the partner evaluation
is present in the result; `none` models the accepted case (no error set). -/
def tradeRejectionMessage (result : TradeProposalResult) : Option String :=
  if result.ok then none
  else
    let reason := result.reason.getD "trade_rejected"
    let explain :=
      match result.partner_eval with
      | some e =>
        " (partner net " ++ toString e.net_value ++ " vs min " ++
          toString e.min_net ++ ")"
      | none => ""
    some ("Trade rejected: " ++ reason ++ explain)

/-! ## Persistence & migration — claim C4

The persistence layer lives in the backend (`src/hockey_sim/league.py` per
`PRIME_TIME_CHECKLIST.md`), which is not part of the supplied source; it is
modelled from spec §4.8. Payloads are modelled as field/value association
lists. -/

/-- The save format version the running build writes. -/
def currentSaveVersion : Nat := 2

/-- Fields a structurally valid payload must carry. -/
def requiredSaveFields : List String := ["season", "day"]

/-- Structural validation of a payload: all required fields present. -/
def structurallyValid (p : List (String × Nat)) : Bool :=
  requiredSaveFields.all (fun f => (p.lookup f).isSome)

/-- A persisted file: an explicit `save_version` plus the payload. -/
structure Snapshot where
  save_version : Nat
  payload : List (String × Nat)
deriving DecidableEq

/-- Modelled from the spec: one registered migration step `v -> v+1`.
The spec leaves the content of individual migrations open; steps here carry
the payload forward unchanged. -/
def migrateStep (_v : Nat) (p : List (String × Nat)) : List (String × Nat) :=
  p

/-- Modelled from the spec: "if it is an older known version, apply the
registered migration chain in order". -/
def migrateChain (v : Nat) (p : List (String × Nat)) : List (String × Nat) :=
  (List.range (currentSaveVersion - v)).foldl (fun acc i => migrateStep (v + i) acc) p

/-- The corrupted-save error. -/
inductive SaveError where
  | corruptedSave
deriving DecidableEq

/-- Modelled from the spec: loading one snapshot — load directly on a
version match, migrate an older known version, and fail with
`corruptedSave` on an unknown/newer version or a payload that fails
structural validation. -/
def loadSnapshot (s : Snapshot) : Except SaveError (List (String × Nat)) :=
  if s.save_version = currentSaveVersion then
    if structurallyValid s.payload then .ok s.payload
    else .error .corruptedSave
  else if s.save_version < currentSaveVersion then
    let p := migrateChain s.save_version s.payload
    if structurallyValid p then .ok p
    else .error .corruptedSave
  else .error .corruptedSave

/-- The stored file plus the retained backup of its previous contents. -/
structure SaveStore where
  current : Option Snapshot
  backup : Option Snapshot
deriving DecidableEq

/-- Modelled from the spec: "On write: a backup of the previous file is
retained before the new one replaces it"; every write stamps the current
save version. -/
def writeSnapshot (store : SaveStore) (p : List (String × Nat)) : SaveStore :=
  { current := some { save_version := currentSaveVersion, payload := p },
    backup := store.current }

/-- Outcome of a load attempt over the store. -/
inductive LoadOutcome where
  | ok (p : List (String × Nat))
  | recovered (p : List (String × Nat))
  | failed
deriving DecidableEq

/-- Modelled from the spec: on a corrupted current file, "fall back to the
last good backup rather than silently proceeding". -/
def loadWithRecovery (store : SaveStore) : LoadOutcome :=
  match store.current with
  | none => .failed
  | some s =>
    match loadSnapshot s with
    | .ok p => .ok p
    | .error _ =>
      match store.backup with
      | none => .failed
      | some b =>
        match loadSnapshot b with
        | .ok p => .recovered p
        | .error _ => .failed

/-! ## Advance-day double-submission guard (App.tsx lines 1593–1610 and
1897–1898) — claim C6

The React component is modelled as a transition system over the state the
guard reads: `simBusy`, `loading`, and the number of outstanding
advance-day requests. Events are serialized as in the browser event loop. -/

/-- The dashboard state the Sim Next Day guard reads. -/
structure UIState where
  simBusy : Bool
  loading : Bool
  outstanding : Nat
deriving DecidableEq

/-- Embedding of the button guard `disabled={simBusy || loading}`. -/
def simButtonDisabled (s : UIState) : Bool :=
  s.simBusy || s.loading

/-- Events: a click on Sim Next Day, the completion of an advance-day
request (the `finally` block of `advanceDay`), and the loading flag
toggling. -/
inductive UIEvent where
  | clickSim
  | advanceDone
  | setLoading (b : Bool)
deriving DecidableEq

/-- Embedding of the advance-day protocol: a click on a disabled button
does nothing; an enabled click runs `advanceDay`, which sets `simBusy`
before issuing the request (one more outstanding request); request
completion — including the error path — runs the `finally` block, clearing
`simBusy` after the request finishes. -/
def uiStep (s : UIState) : UIEvent → UIState
  | .clickSim =>
    if simButtonDisabled s then s
    else { s with simBusy := true, outstanding := s.outstanding + 1 }
  | .advanceDone =>
    if s.outstanding = 0 then s
    else { s with outstanding := s.outstanding - 1, simBusy := false }
  | .setLoading b => { s with loading := b }

/-- Initial dashboard state: idle, nothing outstanding. -/
def initUIState : UIState :=
  ⟨false, false, 0⟩

/-- The state after a serialized event history. -/
def runUI (events : List UIEvent) : UIState :=
  events.foldl uiStep initUIState

/-- The single-flight invariant: at most one advance-day request is
outstanding, and an outstanding request implies `simBusy`. -/
def uiInvariant (s : UIState) : Prop :=
  s.outstanding ≤ 1 ∧ (s.outstanding = 1 → s.simBusy = true)

/-! ## `LeaderBlock` sorting and ranking (App.tsx lines 3955–4008) — claim C9 -/

/-- The boolean order induced by the comparator
`(a, b) => (sortAsc ? getValue(a) - getValue(b) : getValue(b) - getValue(a))`
passed to `Array.prototype.sort`. -/
def leaderLE {T : Type} (getValue : T → Int) (sortAsc : Bool) (a b : T) : Bool :=
  if sortAsc then decide (getValue a ≤ getValue b)
  else decide (getValue b ≤ getValue a)

/-- Embedding of `const sorted = [...rows].sort(...)`: a stable sort by the
comparator order. -/
def leaderSorted {T : Type} (getValue : T → Int) (sortAsc : Bool) (rows : List T) : List T :=
  rows.mergeSort (leaderLE getValue sortAsc)

/-- Embedding of `const visibleRows = showAll ? sorted : sorted.slice(0, 5)`. -/
def visibleRows {T : Type} (getValue : T → Int) (sortAsc showAll : Bool)
    (rows : List T) : List T :=
  if showAll then leaderSorted getValue sortAsc rows
  else (leaderSorted getValue sortAsc rows).take 5

/-- Embedding of `rankAt(idx)` over the values of the visible rows:
`rankAt(0) = 1`; `rankAt(i) = rankAt(i-1)` when the values at `i` and `i-1`
coincide and `i+1` otherwise. Structural recursion on the index shows the
recursion terminates. -/
def rankAt (vals : List Int) : Nat → Nat
  | 0 => 1
  | i + 1 => if vals.getD (i + 1) 0 = vals.getD i 0 then rankAt vals i else i + 2

/-! ## Standings (App.tsx lines 35–53; engine modelled from spec §4.4) — claim C1 -/

/-- A completed game in the game log: participants, final goal totals,
whether it needed overtime, and the day it was played. -/
structure Game where
  home : String
  away : String
  home_goals : Nat
  away_goals : Nat
  overtime : Bool
  day : Nat
deriving DecidableEq

/-- The team participated in the game. -/
def teamInGame (t : String) (g : Game) : Bool :=
  g.home == t || g.away == t

/-- Goals for `t` in `g` (away goals when `t` is not the home side). -/
def gfOf (t : String) (g : Game) : Nat :=
  if g.home == t then g.home_goals else g.away_goals

/-- Goals against `t` in `g`. -/
def gaOf (t : String) (g : Game) : Nat :=
  if g.home == t then g.away_goals else g.home_goals

/-- `t` won `g`. -/
def isWin (t : String) (g : Game) : Bool :=
  decide (gaOf t g < gfOf t g)

/-- `t` lost `g` in overtime. -/
def isOTLoss (t : String) (g : Game) : Bool :=
  decide (gfOf t g < gaOf t g) && g.overtime

/-- `t` lost `g` in regulation. -/
def isRegLoss (t : String) (g : Game) : Bool :=
  decide (gfOf t g < gaOf t g) && !g.overtime

/-- Modelled from the spec: standings points awarded to `t` for one
completed game — two for a win, one for an overtime loss, none otherwise. -/
def pointsForGame (t : String) (g : Game) : Nat :=
  if isWin t g then 2 else if isOTLoss t g then 1 else 0

/-- The games of `t` completed by `asOfDay`. -/
def relevantGames (games : List Game) (t : String) (asOfDay : Nat) : List Game :=
  games.filter (fun g => decide (g.day ≤ asOfDay) && teamInGame t g)

/-- The standings-row shape the dashboard consumes (`StandingRow` in
App.tsx; the display-only `l10`/`strk`/`home`/`away` strings are not
modelled). -/
structure StandingRow where
  team : String
  gp : Nat
  w : Nat
  l : Nat
  otl : Nat
  pts : Nat
  gf : Nat
  ga : Nat
deriving DecidableEq

/-- Modelled from the spec: the Standings Engine row for one team — "Pure
function over the Game log for a given scope … and as-of day: computes
games played, wins, losses, OT losses, points, goals-for/against"; points
are accumulated game by game from `pointsForGame`. -/
def standingRow (games : List Game) (t : String) (asOfDay : Nat) : StandingRow :=
  let gs := relevantGames games t asOfDay
  { team := t
    gp := gs.length
    w := (gs.filter (isWin t)).length
    l := (gs.filter (isRegLoss t)).length
    otl := (gs.filter (isOTLoss t)).length
    pts := gs.foldl (fun acc g => acc + pointsForGame t g) 0
    gf := gs.foldl (fun acc g => acc + gfOf t g) 0
    ga := gs.foldl (fun acc g => acc + gaOf t g) 0 }

/-- A standings scope: whole league, one conference, or one division. -/
inductive Scope where
  | league
  | conference (name : String)
  | division (name : String)
deriving DecidableEq

/-- League metadata for one team: its conference and division. -/
structure TeamInfo where
  name : String
  conference : String
  division : String
deriving DecidableEq

/-- Whether a team belongs to the scope. -/
def inScope (scope : Scope) (ti : TeamInfo) : Bool :=
  match scope with
  | .league => true
  | .conference c => ti.conference == c
  | .division d => ti.division == d

/-- Goal differential of a row. -/
def diffOf (r : StandingRow) : Int :=
  (r.gf : Int) - r.ga

/-- Modelled from the spec: the standings sort order — descending points,
then wins, then goal differential. -/
def standingsBefore (a b : StandingRow) : Bool :=
  if a.pts ≠ b.pts then decide (b.pts < a.pts)
  else if a.w ≠ b.w then decide (b.w < a.w)
  else decide (diffOf b ≤ diffOf a)

/-- Modelled from the spec: the standings table for a scope and as-of day —
one recomputed row per team in scope, sorted by `standingsBefore`. -/
def standingsTable (teams : List TeamInfo) (games : List Game) (scope : Scope)
    (asOfDay : Nat) : List StandingRow :=
  ((teams.filter (inScope scope)).map
    (fun ti => standingRow games ti.name asOfDay)).mergeSort standingsBefore

end HockeySim

namespace HockeySim

/-- The first character of a string is preserved by appending on the right. -/
theorem data_head_of_left (s t : String) (c : Char) (h : s.data.head? = some c) :
    (s ++ t).data.head? = some c := by
  rw [String.data_append]
  cases hs : s.data with
  | nil => rw [hs] at h; cases h
  | cons a l =>
    rw [hs] at h
    simpa using h

/-- C5: for every completed game record (both goal totals present) and any
team string, `formatScheduleResult` begins with `'W'` exactly when that
team's goal total strictly exceeds the opponent's and with `'L'` otherwise;
and when the two goal totals differ (no-tie precondition) the team's
goals-for never equals its goals-against, so the equal-goals branch of the
`'L'` case is unreachable. -/
theorem formatScheduleResult_winLoss (g : ScheduleGame) (t : String) (hg ag : Int)
    (hh : g.home_goals = some hg) (ha : g.away_goals = some ag) :
    ((formatScheduleResult g t).data.head? = some 'W' ↔
      (if g.home == t then hg else ag) > (if g.home == t then ag else hg)) ∧
    ((formatScheduleResult g t).data.head? = some 'L' ↔
      ¬ (if g.home == t then hg else ag) > (if g.home == t then ag else hg)) ∧
    (hg ≠ ag →
      (if g.home == t then hg else ag) ≠ (if g.home == t then ag else hg)) := by
  have e : formatScheduleResult g t =
      (if (if g.home == t then hg else ag) > (if g.home == t then ag else hg)
        then "W" else "L") ++ " " ++
        toString (if g.home == t then hg else ag) ++ "-" ++
        toString (if g.home == t then ag else hg) ++
        (if g.overtime.getD false then " OT" else "") := by
    unfold formatScheduleResult
    rw [hh, ha]
  have hW : ∀ x y z : String,
      (("W" ++ " " ++ x ++ "-" ++ y ++ z).data.head?) = some 'W' := fun x y z =>
    data_head_of_left _ _ _ (data_head_of_left _ _ _ (data_head_of_left _ _ _
      (data_head_of_left _ _ _ rfl)))
  have hL : ∀ x y z : String,
      (("L" ++ " " ++ x ++ "-" ++ y ++ z).data.head?) = some 'L' := fun x y z =>
    data_head_of_left _ _ _ (data_head_of_left _ _ _ (data_head_of_left _ _ _
      (data_head_of_left _ _ _ rfl)))
  refine ⟨?_, ?_, ?_⟩
  · rw [e]
    by_cases hgt : (if g.home == t then hg else ag) > (if g.home == t then ag else hg)
    · rw [if_pos hgt]
      exact iff_of_true (hW _ _ _) hgt
    · rw [if_neg hgt]
      refine iff_of_false ?_ hgt
      intro hcontra
      exact absurd ((hL _ _ _).symm.trans hcontra) (by decide)
  · rw [e]
    by_cases hgt : (if g.home == t then hg else ag) > (if g.home == t then ag else hg)
    · rw [if_pos hgt]
      refine iff_of_false ?_ (by simpa using hgt)
      intro hcontra
      exact absurd ((hW _ _ _).symm.trans hcontra) (by decide)
    · rw [if_neg hgt]
      exact iff_of_true (hL _ _ _) hgt
  · intro hne
    by_cases hb : g.home == t
    · simpa [hb] using hne
    · simpa [hb] using hne.symm

/-- Witness for C5 at a concrete completed game. -/
theorem formatScheduleResult_winLoss_witness :
    (formatScheduleResult ⟨"A", "B", some 3, some 2, some false⟩ "A").data.head? = some 'W' ∧
    (formatScheduleResult ⟨"A", "B", some 3, some 2, some true⟩ "B").data.head? = some 'L' :=
  ⟨(formatScheduleResult_winLoss ⟨"A", "B", some 3, some 2, some false⟩ "A" 3 2 rfl rfl).1.mpr
      (by decide),
   (formatScheduleResult_winLoss ⟨"A", "B", some 3, some 2, some true⟩ "B" 3 2 rfl rfl).2.1.mpr
      (by decide)⟩

/-- C7: `needKeys` returns the keys of the `scores` map when that map is
non-empty and otherwise returns exactly
`[top6_f, top4_d, starter_g, depth_f, depth_d, cap_relief]` in that order;
`needLabel` maps each of those six keys to its display label and returns any
other key unchanged. -/
theorem needKeys_needLabel_spec :
    (∀ needs : Option TeamNeeds,
      (((needs.map TeamNeeds.scores).getD []).map Prod.fst ≠ [] →
        needKeys needs = ((needs.map TeamNeeds.scores).getD []).map Prod.fst) ∧
      (((needs.map TeamNeeds.scores).getD []).map Prod.fst = [] →
        needKeys needs =
          ["top6_f", "top4_d", "starter_g", "depth_f", "depth_d", "cap_relief"])) ∧
    needLabel "top6_f" = "Top-6 F" ∧ needLabel "top4_d" = "Top-4 D" ∧
    needLabel "starter_g" = "Starter G" ∧ needLabel "depth_f" = "Depth F" ∧
    needLabel "depth_d" = "Depth D" ∧ needLabel "cap_relief" = "Cap Relief" ∧
    (∀ key : String, key ∉ defaultNeedKeys → needLabel key = key) := by
  refine ⟨?_, by decide, by decide, by decide, by decide, by decide, by decide, ?_⟩
  · intro needs
    constructor
    · intro hne
      unfold needKeys
      rw [if_pos (by simpa [List.length_pos] using hne)]
    · intro hempty
      unfold needKeys
      rw [hempty]
      rfl
  · intro key hk
    simp only [defaultNeedKeys, List.mem_cons, List.not_mem_nil, or_false, not_or] at hk
    obtain ⟨h1, h2, h3, h4, h5, h6⟩ := hk
    have e1 : (key == "top6_f") = false := beq_eq_false_iff_ne.mpr h1
    have e2 : (key == "top4_d") = false := beq_eq_false_iff_ne.mpr h2
    have e3 : (key == "starter_g") = false := beq_eq_false_iff_ne.mpr h3
    have e4 : (key == "depth_f") = false := beq_eq_false_iff_ne.mpr h4
    have e5 : (key == "depth_d") = false := beq_eq_false_iff_ne.mpr h5
    have e6 : (key == "cap_relief") = false := beq_eq_false_iff_ne.mpr h6
    simp [needLabel, needLabelMap, List.lookup, e1, e2, e3, e4, e5, e6]

/-- Witness for C7 at concrete inputs. -/
theorem needKeys_needLabel_spec_witness :
    needKeys (some ⟨"T", [("top4_d", 3), ("depth_f", 1)]⟩) = ["top4_d", "depth_f"] ∧
    needKeys none = ["top6_f", "top4_d", "starter_g", "depth_f", "depth_d", "cap_relief"] ∧
    needLabel "overall" = "overall" :=
  ⟨(needKeys_needLabel_spec.1 (some ⟨"T", [("top4_d", 3), ("depth_f", 1)]⟩)).1 (by decide),
   (needKeys_needLabel_spec.1 none).2 (by decide),
   needKeys_needLabel_spec.2.2.2.2.2.2.2 "overall" (by decide)⟩

/-- C8: `injuryStatusKey` totally classifies every (status, injured) pair:
a trimmed upper-cased status containing `"DTD"` yields `"dtd"` regardless of
the injured flag; otherwise a cleared injured flag yields `"none"`; otherwise
`"season"`, `"ltir"`, `"ir"` in that priority; and `renderInjuryChip`
renders a chip exactly when the classification is not `"none"`. -/
theorem injuryStatusKey_spec (status : Option String) (injured : Option Bool) :
    (strContains (jsToUpper (jsTrim (status.getD ""))) "DTD" = true →
      injuryStatusKey status injured = "dtd") ∧
    (strContains (jsToUpper (jsTrim (status.getD ""))) "DTD" = false →
      injured.getD false = false → injuryStatusKey status injured = "none") ∧
    (strContains (jsToUpper (jsTrim (status.getD ""))) "DTD" = false →
      injured.getD false = true →
      strContains (jsToUpper (jsTrim (status.getD ""))) "SEASON" = true →
      injuryStatusKey status injured = "season") ∧
    (strContains (jsToUpper (jsTrim (status.getD ""))) "DTD" = false →
      injured.getD false = true →
      strContains (jsToUpper (jsTrim (status.getD ""))) "SEASON" = false →
      strContains (jsToUpper (jsTrim (status.getD ""))) "LTIR" = true →
      injuryStatusKey status injured = "ltir") ∧
    (strContains (jsToUpper (jsTrim (status.getD ""))) "DTD" = false →
      injured.getD false = true →
      strContains (jsToUpper (jsTrim (status.getD ""))) "SEASON" = false →
      strContains (jsToUpper (jsTrim (status.getD ""))) "LTIR" = false →
      injuryStatusKey status injured = "ir") ∧
    ((renderInjuryChip status injured).isSome = true ↔
      injuryStatusKey status injured ≠ "none") := by
  refine ⟨?_, ?_, ?_, ?_, ?_, ?_⟩
  · intro h1
    simp [injuryStatusKey, h1]
  · intro h1 h2
    simp [injuryStatusKey, h1, h2]
  · intro h1 h2 h3
    simp [injuryStatusKey, h1, h2, h3]
  · intro h1 h2 h3 h4
    simp [injuryStatusKey, h1, h2, h3, h4]
  · intro h1 h2 h3 h4
    simp [injuryStatusKey, h1, h2, h3, h4]
  · by_cases c1 : strContains (jsToUpper (jsTrim (status.getD ""))) "DTD" <;>
      by_cases c2 : injured.getD false <;>
      by_cases c3 : strContains (jsToUpper (jsTrim (status.getD ""))) "SEASON" <;>
      by_cases c4 : strContains (jsToUpper (jsTrim (status.getD ""))) "LTIR" <;>
      simp [renderInjuryChip, injuryStatusKey, c1, c2, c3, c4]

/-- Witness for C8: in particular a player with `injured = false` whose
status mentions DTD is still classified as day-to-day. -/
theorem injuryStatusKey_spec_witness :
    injuryStatusKey (some " dtd ") (some false) = "dtd" ∧
    injuryStatusKey (some "Out (LTIR)") (some true) = "ltir" ∧
    injuryStatusKey (some "") (some false) = "none" :=
  ⟨(injuryStatusKey_spec (some " dtd ") (some false)).1 (by decide),
   (injuryStatusKey_spec (some "Out (LTIR)") (some true)).2.2.2.1 (by decide) (by decide)
      (by decide) (by decide),
   (injuryStatusKey_spec (some "") (some false)).2.1 (by decide) (by decide)⟩

/-- C10: `topStarName s` equals `parseStarSummary s`'s `playerLine` for
every input, and whenever the first `')'` occurs at a positive index the
player line concatenated with the raw remainder reconstructs the trimmed
input, the stat line being the trimmed remainder. -/
theorem topStarName_eq_parseStarSummary (s : Option String) :
    topStarName s = (parseStarSummary s).playerLine ∧
    (jsIndexOfChar (jsTrim (s.getD "")).data ')' > 0 →
      ∃ raw : String,
        (parseStarSummary s).playerLine ++ raw = jsTrim (s.getD "") ∧
        jsTrim raw = (parseStarSummary s).statLine) := by
  constructor
  · unfold topStarName parseStarSummary
    by_cases h : jsIndexOfChar (jsTrim (s.getD "")).data ')' > 0
    · rw [if_pos h, if_pos h]
    · rw [if_neg h, if_neg h]
  · intro h
    refine ⟨⟨(jsTrim (s.getD "")).data.drop
      ((jsIndexOfChar (jsTrim (s.getD "")).data ')').toNat + 1)⟩, ?_, ?_⟩
    · apply String.ext
      rw [String.data_append]
      unfold parseStarSummary
      rw [if_pos h]
      exact List.take_append_drop _ _
    · unfold parseStarSummary
      rw [if_pos h]

/-- Witness for C10 at a concrete star summary. -/
theorem topStarName_eq_parseStarSummary_witness :
    topStarName (some " Joe Star (BOS) 2G 1A ") =
      (parseStarSummary (some " Joe Star (BOS) 2G 1A ")).playerLine ∧
    ∃ raw : String,
      (parseStarSummary (some " Joe Star (BOS) 2G 1A ")).playerLine ++ raw =
        jsTrim " Joe Star (BOS) 2G 1A " ∧
      jsTrim raw = (parseStarSummary (some " Joe Star (BOS) 2G 1A ")).statLine :=
  ⟨(topStarName_eq_parseStarSummary (some " Joe Star (BOS) 2G 1A ")).1,
   (topStarName_eq_parseStarSummary (some " Joe Star (BOS) 2G 1A ")).2 (by decide)⟩

/-- C2: the Call Up control is disabled exactly when the player's injured
flag is set or the reported active count is at least the active maximum
(count defaulting to `0` and maximum to `22` for an absent payload); and the
spec-modelled `promote` succeeds only on a team strictly under its active
maximum and a player not injured beyond recall, growing the active roster by
exactly one. -/
theorem callUp_guard_spec :
    (∀ (d : Option CallupsPayload) (r : MinorRow),
      callUpDisabled d r = true ↔
        (r.injured = true ∨
          ((d.map CallupsPayload.active_count).getD 0) ≥
            ((d.map CallupsPayload.max_active).getD 22))) ∧
    (∀ (team : RosterTeam) (player : RosterPlayer) (t2 : RosterTeam),
      promote team player = .ok t2 →
        team.active.length < team.maxActive ∧
        player.injuredBeyondRecall = false ∧
        t2.active.length = team.active.length + 1) := by
  constructor
  · intro d r
    simp [callUpDisabled, isActiveRosterFull]
  · intro team player t2 h
    unfold promote at h
    by_cases h1 : team.active.length ≥ team.maxActive
    · simp [h1] at h
    · by_cases h2 : player.injuredBeyondRecall = true
      · simp [h1, h2] at h
      · simp only [h1, h2, if_false, Bool.false_eq_true, ite_false,
          Except.ok.injEq] at h
        refine ⟨by omega, by simpa using h2, ?_⟩
        rw [← h]
        simp

/-- Witness for C2: a full roster disables the control, and a concrete
successful promotion was from a team under the maximum. -/
theorem callUp_guard_spec_witness :
    callUpDisabled (some ⟨22, 22, []⟩) ⟨"X", false⟩ = true ∧
    ((⟨[], [⟨"P", false⟩], 2⟩ : RosterTeam).active.length <
        (⟨[], [⟨"P", false⟩], 2⟩ : RosterTeam).maxActive ∧
      (⟨"P", false⟩ : RosterPlayer).injuredBeyondRecall = false ∧
      (⟨[⟨"P", false⟩], [], 2⟩ : RosterTeam).active.length =
        (⟨[], [⟨"P", false⟩], 2⟩ : RosterTeam).active.length + 1) :=
  ⟨(callUp_guard_spec.1 (some ⟨22, 22, []⟩) ⟨"X", false⟩).mpr (Or.inr (by decide)),
   callUp_guard_spec.2 ⟨[], [⟨"P", false⟩], 2⟩ ⟨"P", false⟩ ⟨[⟨"P", false⟩], [], 2⟩
      rfl⟩

/-- C3: a proposed trade executes exactly when both sides' net value meets
that side's minimum; a rejected proposal leaves the rosters unchanged and
carries a reason naming the failing side; the dashboard surfaces the
reason, augmented with the partner's net value versus its minimum when the
partner evaluation is present in the result. -/
theorem tradeProposal_spec (st : TradeState) (ue pe : SideEval) (give recv : String) :
    ((resolveProposal st ue pe give recv).2.ok = true ↔
      (ue.net_value ≥ ue.min_net ∧ pe.net_value ≥ pe.min_net)) ∧
    ((resolveProposal st ue pe give recv).2.ok = false →
      (resolveProposal st ue pe give recv).1 = st) ∧
    ((resolveProposal st ue pe give recv).2.ok = true →
      (resolveProposal st ue pe give recv).1 = applyTrade st give recv) ∧
    ((resolveProposal st ue pe give recv).2.reason = some "proposing_side_below_min" →
      ue.net_value < ue.min_net) ∧
    ((resolveProposal st ue pe give recv).2.reason = some "partner_side_below_min" →
      pe.net_value < pe.min_net) ∧
    ((resolveProposal st ue pe give recv).2.ok = false →
      (resolveProposal st ue pe give recv).2.reason = some "proposing_side_below_min" ∨
      (resolveProposal st ue pe give recv).2.reason = some "partner_side_below_min") ∧
    ((resolveProposal st ue pe give recv).2.ok = false →
      tradeRejectionMessage (resolveProposal st ue pe give recv).2 =
        some ("Trade rejected: " ++
          ((resolveProposal st ue pe give recv).2.reason.getD "trade_rejected") ++
          " (partner net " ++ toString pe.net_value ++ " vs min " ++
          toString pe.min_net ++ ")")) ∧
    (∀ res : TradeProposalResult, res.ok = false → res.partner_eval = none →
      tradeRejectionMessage res =
        some ("Trade rejected: " ++ res.reason.getD "trade_rejected")) := by
  refine ⟨?_, ?_, ?_, ?_, ?_, ?_, ?_, ?_⟩
  case refine_7 =>
    by_cases h1 : ue.net_value < ue.min_net <;>
      by_cases h2 : pe.net_value < pe.min_net <;>
      simp +decide [resolveProposal, evaluateProposal, tradeRejectionMessage,
        h1, h2] <;>
      (apply String.ext
       simp [String.data_append])
  case refine_8 =>
    intro res h1 h2
    simp [tradeRejectionMessage, h1, h2]
  all_goals
    by_cases h1 : ue.net_value < ue.min_net <;>
      by_cases h2 : pe.net_value < pe.min_net <;>
      simp +decide [resolveProposal, evaluateProposal, h1, h2] <;>
      omega

/-- Witness for C3: a concrete proposal the partner side rejects leaves the
state unchanged, and the reason implies the partner was below minimum. -/
theorem tradeProposal_spec_witness :
    (resolveProposal ⟨["A"], ["B"]⟩ ⟨5, 3⟩ ⟨-1, 0⟩ "A" "B").1 = ⟨["A"], ["B"]⟩ ∧
    ((-1 : Int) < 0) :=
  ⟨(tradeProposal_spec ⟨["A"], ["B"]⟩ ⟨5, 3⟩ ⟨-1, 0⟩ "A" "B").2.1 (by decide),
   (tradeProposal_spec ⟨["A"], ["B"]⟩ ⟨5, 3⟩ ⟨-1, 0⟩ "A" "B").2.2.2.2.1 (by decide)⟩

/-- C4: every write stamps the current `save_version` and retains the
previous file as backup; loading a snapshot with an unknown/newer version
or an invalid payload yields a `corruptedSave` error, never a payload;
every successfully loaded payload passed validation at a known version; and
a corrupted current file with a good backup recovers from the backup and
never silently proceeds. -/
theorem persistence_spec :
    (∀ (store : SaveStore) (p : List (String × Nat)),
      (writeSnapshot store p).backup = store.current ∧
      (writeSnapshot store p).current = some ⟨currentSaveVersion, p⟩) ∧
    (∀ s : Snapshot, currentSaveVersion < s.save_version →
      loadSnapshot s = .error .corruptedSave) ∧
    (∀ s : Snapshot, s.save_version = currentSaveVersion →
      structurallyValid s.payload = false →
      loadSnapshot s = .error .corruptedSave) ∧
    (∀ s : Snapshot, s.save_version < currentSaveVersion →
      structurallyValid (migrateChain s.save_version s.payload) = false →
      loadSnapshot s = .error .corruptedSave) ∧
    (∀ (s : Snapshot) (p : List (String × Nat)), loadSnapshot s = .ok p →
      s.save_version ≤ currentSaveVersion ∧ structurallyValid p = true) ∧
    (∀ (store : SaveStore) (s b : Snapshot) (p : List (String × Nat)),
      store.current = some s → loadSnapshot s = .error .corruptedSave →
      store.backup = some b → loadSnapshot b = .ok p →
      loadWithRecovery store = .recovered p) ∧
    (∀ (store : SaveStore) (s : Snapshot) (q : List (String × Nat)),
      store.current = some s → loadSnapshot s = .error .corruptedSave →
      loadWithRecovery store ≠ .ok q) := by
  refine ⟨?_, ?_, ?_, ?_, ?_, ?_, ?_⟩
  · intro store p
    exact ⟨rfl, rfl⟩
  · intro s h
    unfold loadSnapshot
    rw [if_neg (by omega), if_neg (by omega)]
  · intro s h hv
    unfold loadSnapshot
    rw [if_pos h, if_neg (by simp [hv])]
  · intro s h hv
    unfold loadSnapshot
    rw [if_neg (by omega), if_pos h, if_neg (by simp [hv])]
  · intro s p h
    unfold loadSnapshot at h
    by_cases h1 : s.save_version = currentSaveVersion
    · rw [if_pos h1] at h
      by_cases h2 : structurallyValid s.payload = true
      · rw [if_pos h2] at h
        cases h
        exact ⟨by omega, h2⟩
      · rw [if_neg h2] at h
        cases h
    · rw [if_neg h1] at h
      by_cases h3 : s.save_version < currentSaveVersion
      · rw [if_pos h3] at h
        by_cases h4 : structurallyValid (migrateChain s.save_version s.payload) = true
        · rw [if_pos h4] at h
          cases h
          exact ⟨by omega, h4⟩
        · rw [if_neg h4] at h
          cases h
      · rw [if_neg h3] at h
        cases h
  · intro store s b p hc hs hb hp
    simp [loadWithRecovery, hc, hs, hb, hp]
  · intro store s q hc hs
    simp only [loadWithRecovery, hc, hs]
    cases hb : store.backup with
    | none => simp
    | some b =>
      cases hlb : loadSnapshot b with
      | ok p => simp [hlb]
      | error e => simp [hlb]

/-- Witness for C4 at a concrete store: a newer-versioned current file is
rejected and the good backup is restored. -/
theorem persistence_spec_witness :
    loadSnapshot ⟨9, [("season", 1), ("day", 4)]⟩ = .error .corruptedSave ∧
    loadWithRecovery
        ⟨some ⟨9, [("season", 1), ("day", 4)]⟩,
         some ⟨2, [("season", 1), ("day", 3)]⟩⟩ =
      .recovered [("season", 1), ("day", 3)] ∧
    (writeSnapshot ⟨some ⟨2, [("season", 1), ("day", 3)]⟩, none⟩
        [("season", 1), ("day", 4)]).backup = some ⟨2, [("season", 1), ("day", 3)]⟩ :=
  ⟨persistence_spec.2.1 ⟨9, [("season", 1), ("day", 4)]⟩ (by decide),
   persistence_spec.2.2.2.2.2.1
      ⟨some ⟨9, [("season", 1), ("day", 4)]⟩, some ⟨2, [("season", 1), ("day", 3)]⟩⟩
      ⟨9, [("season", 1), ("day", 4)]⟩ ⟨2, [("season", 1), ("day", 3)]⟩
      [("season", 1), ("day", 3)] rfl rfl rfl rfl,
   (persistence_spec.1 ⟨some ⟨2, [("season", 1), ("day", 3)]⟩, none⟩
      [("season", 1), ("day", 4)]).1⟩

/-- A single event preserves the single-flight invariant. -/
theorem uiInvariant_step (s : UIState) (e : UIEvent) (h : uiInvariant s) :
    uiInvariant (uiStep s e) := by
  obtain ⟨hle, hbusy⟩ := h
  cases e with
  | clickSim =>
    by_cases hd : simButtonDisabled s = true
    · simpa [uiStep, hd] using ⟨hle, hbusy⟩
    · have hb : s.simBusy = false := by
        simp [simButtonDisabled] at hd
        exact hd.1
      have h0 : s.outstanding = 0 := by
        by_cases hz : s.outstanding = 0
        · exact hz
        · have : s.outstanding = 1 := by omega
          rw [hbusy this] at hb
          cases hb
      simp [uiStep, hd, uiInvariant, h0]
  | advanceDone =>
    by_cases hz : s.outstanding = 0
    · simpa [uiStep, hz] using ⟨hle, hbusy⟩
    · refine ⟨?_, ?_⟩ <;> simp [uiStep, hz] <;> omega
  | setLoading b =>
    exact ⟨hle, hbusy⟩

/-- The invariant holds after any serialized event history from the initial
state. -/
theorem uiInvariant_runUI (events : List UIEvent) : uiInvariant (runUI events) := by
  have aux : ∀ (l : List UIEvent) (s : UIState), uiInvariant s →
      uiInvariant (l.foldl uiStep s) := by
    intro l
    induction l with
    | nil => intro s h; exact h
    | cons e t ih =>
      intro s h
      exact ih (uiStep s e) (uiInvariant_step s e h)
  exact aux events initUIState (by constructor <;> simp [initUIState])

/-- C6: in every state reachable by a serialized event history, at most one
advance-day request is outstanding, and while one is in flight a further
click on Sim Next Day is a no-op (the control is disabled), so a second
advance can never be submitted while one is outstanding. -/
theorem advanceDay_single_flight (events : List UIEvent) :
    (runUI events).outstanding ≤ 1 ∧
    (1 ≤ (runUI events).outstanding →
      simButtonDisabled (runUI events) = true ∧
      uiStep (runUI events) .clickSim = runUI events) := by
  obtain ⟨hle, hbusy⟩ := uiInvariant_runUI events
  refine ⟨hle, ?_⟩
  intro hout
  have h1 : (runUI events).outstanding = 1 := by omega
  have hb : (runUI events).simBusy = true := hbusy h1
  have hd : simButtonDisabled (runUI events) = true := by
    simp [simButtonDisabled, hb]
  exact ⟨hd, by simp [uiStep, hd]⟩

/-- Witness for C6: after two consecutive clicks only one request is
outstanding and a further click is a no-op. -/
theorem advanceDay_single_flight_witness :
    (runUI [.clickSim, .clickSim]).outstanding ≤ 1 ∧
    uiStep (runUI [.clickSim, .clickSim]) .clickSim = runUI [.clickSim, .clickSim] :=
  ⟨(advanceDay_single_flight [.clickSim, .clickSim]).1,
   ((advanceDay_single_flight [.clickSim, .clickSim]).2 (by decide)).2⟩

/-- `rankAt` never exceeds the competition rank bound `i + 1`. -/
theorem rankAt_le (vals : List Int) : ∀ i : Nat, rankAt vals i ≤ i + 1 := by
  intro i
  induction i with
  | zero => simp [rankAt]
  | succ i ih =>
    unfold rankAt
    split
    · omega
    · omega

/-- `leaderLE` is transitive. -/
theorem leaderLE_trans {T : Type} (getValue : T → Int) (sortAsc : Bool)
    (a b c : T) (h1 : leaderLE getValue sortAsc a b = true)
    (h2 : leaderLE getValue sortAsc b c = true) :
    leaderLE getValue sortAsc a c = true := by
  cases sortAsc <;> simp [leaderLE] at h1 h2 ⊢ <;> omega

/-- `leaderLE` is total. -/
theorem leaderLE_total {T : Type} (getValue : T → Int) (sortAsc : Bool)
    (a b : T) :
    (leaderLE getValue sortAsc a b || leaderLE getValue sortAsc b a) = true := by
  cases sortAsc <;> simp [leaderLE] <;> omega

/-- C9: `rankAt` implements competition ranking over the visible rows —
`rankAt 0 = 1`, the stated recurrence holds, ranks are non-decreasing down
the list, and rows with equal values share a rank; the sorted list is a
permutation of the input rows ordered by the comparator (descending when
`sortAsc` is false), and the visible rows are that list truncated to the
first 5 when not expanded, the whole list when expanded. -/
theorem leaderBlock_rank_sorted {T : Type} (getValue : T → Int)
    (sortAsc showAll : Bool) (rows : List T) :
    rankAt ((visibleRows getValue sortAsc showAll rows).map getValue) 0 = 1 ∧
    (∀ (vals : List Int) (i : Nat),
      rankAt vals (i + 1) =
        if vals.getD (i + 1) 0 = vals.getD i 0 then rankAt vals i else i + 2) ∧
    (∀ (vals : List Int) (i : Nat), rankAt vals i ≤ rankAt vals (i + 1)) ∧
    (∀ (vals : List Int) (i : Nat), vals.getD (i + 1) 0 = vals.getD i 0 →
      rankAt vals (i + 1) = rankAt vals i) ∧
    (leaderSorted getValue sortAsc rows).Perm rows ∧
    List.Pairwise (fun a b => leaderLE getValue sortAsc a b = true)
      (leaderSorted getValue sortAsc rows) ∧
    List.Pairwise (fun a b => leaderLE getValue sortAsc a b = true)
      (visibleRows getValue sortAsc showAll rows) ∧
    (showAll = false →
      visibleRows getValue sortAsc showAll rows =
        (leaderSorted getValue sortAsc rows).take 5) ∧
    (showAll = true →
      visibleRows getValue sortAsc showAll rows =
        leaderSorted getValue sortAsc rows) := by
  have hsorted : List.Pairwise (fun a b => leaderLE getValue sortAsc a b = true)
      (leaderSorted getValue sortAsc rows) :=
    List.sorted_mergeSort (leaderLE_trans getValue sortAsc)
      (leaderLE_total getValue sortAsc) rows
  have hrec : ∀ (vals : List Int) (i : Nat),
      rankAt vals (i + 1) =
        if vals.getD (i + 1) 0 = vals.getD i 0 then rankAt vals i else i + 2 :=
    fun vals i => rfl
  refine ⟨rfl, hrec, ?_, ?_, List.mergeSort_perm rows _, hsorted, ?_, ?_, ?_⟩
  · intro vals i
    rw [hrec]
    by_cases h : vals.getD (i + 1) 0 = vals.getD i 0
    · rw [if_pos h]
    · rw [if_neg h]
      have := rankAt_le vals i
      omega
  · intro vals i h
    rw [hrec, if_pos h]
  · unfold visibleRows
    split
    · exact hsorted
    · exact List.Pairwise.sublist (List.take_sublist 5 _) hsorted
  · intro h
    simp [visibleRows, h]
  · intro h
    simp [visibleRows, h]

/-- Witness for C9: equal adjacent values share a rank, and collapsed view
truncates the sorted rows to five. -/
theorem leaderBlock_rank_sorted_witness :
    rankAt [9, 9, 7] 1 = rankAt [9, 9, 7] 0 ∧
    visibleRows (fun v : Int => v) false false [5, 2, 9, 9, 1, 7] =
      (leaderSorted (fun v : Int => v) false [5, 2, 9, 9, 1, 7]).take 5 :=
  ⟨(leaderBlock_rank_sorted (fun v : Int => v) false false
      [5, 2, 9, 9, 1, 7]).2.2.2.1 [9, 9, 7] 0 (by decide),
   (leaderBlock_rank_sorted (fun v : Int => v) false false
      [5, 2, 9, 9, 1, 7]).2.2.2.2.2.2.2.1 rfl⟩

/-- A win and an overtime loss are mutually exclusive outcomes. -/
theorem isWin_isOTLoss_exclusive (t : String) (g : Game) :
    ¬(isWin t g = true ∧ isOTLoss t g = true) := by
  intro h
  obtain ⟨hw, ho⟩ := h
  simp [isWin] at hw
  simp [isOTLoss] at ho
  omega

/-- Accumulating per-game points over a game list equals twice the win
count plus the overtime-loss count. -/
theorem points_accumulate (t : String) (gs : List Game) :
    gs.foldl (fun acc g => acc + pointsForGame t g) 0 =
      2 * (gs.filter (isWin t)).length + (gs.filter (isOTLoss t)).length := by
  have aux : ∀ (l : List Game) (acc : Nat),
      l.foldl (fun a g => a + pointsForGame t g) acc =
        acc + 2 * (l.filter (isWin t)).length + (l.filter (isOTLoss t)).length := by
    intro l
    induction l with
    | nil =>
      intro acc
      simp
    | cons g rest ih =>
      intro acc
      rw [List.foldl_cons, ih]
      by_cases hw : isWin t g = true
      · have ho : isOTLoss t g = false := by
          rcases Bool.eq_false_or_eq_true (isOTLoss t g) with h | h
          · exact absurd ⟨hw, h⟩ (isWin_isOTLoss_exclusive t g)
          · exact h
        simp [List.filter_cons, pointsForGame, hw, ho]
        omega
      · by_cases ho : isOTLoss t g = true
        · simp [List.filter_cons, pointsForGame, hw, ho]
          try omega
        · simp [List.filter_cons, pointsForGame, hw, ho]
          try omega
  have := aux gs 0
  omega

/-- C1: every row of the standings table, for every scope and as-of day,
satisfies `pts = 2*w + 1*otl`. -/
theorem standings_points_formula (teams : List TeamInfo) (games : List Game)
    (scope : Scope) (asOfDay : Nat) (row : StandingRow)
    (hrow : row ∈ standingsTable teams games scope asOfDay) :
    row.pts = 2 * row.w + row.otl := by
  unfold standingsTable at hrow
  rw [List.Perm.mem_iff (List.mergeSort_perm _ _)] at hrow
  rw [List.mem_map] at hrow
  obtain ⟨ti, _, hrw⟩ := hrow
  rw [← hrw]
  show (standingRow games ti.name asOfDay).pts =
    2 * (standingRow games ti.name asOfDay).w + (standingRow games ti.name asOfDay).otl
  simp only [standingRow]
  exact points_accumulate ti.name (relevantGames games ti.name asOfDay)

/-- Witness for C1: a concrete two-game log (one regulation win, one
overtime loss for team A). -/
theorem standings_points_formula_witness :
    (standingRow [⟨"A", "B", 3, 2, false, 1⟩, ⟨"B", "A", 4, 3, true, 2⟩] "A" 10).pts =
      2 * (standingRow [⟨"A", "B", 3, 2, false, 1⟩, ⟨"B", "A", 4, 3, true, 2⟩] "A" 10).w +
        (standingRow [⟨"A", "B", 3, 2, false, 1⟩, ⟨"B", "A", 4, 3, true, 2⟩] "A" 10).otl :=
  standings_points_formula [⟨"A", "East", "Atl"⟩, ⟨"B", "East", "Atl"⟩]
    [⟨"A", "B", 3, 2, false, 1⟩, ⟨"B", "A", 4, 3, true, 2⟩] .league 10
    (standingRow [⟨"A", "B", 3, 2, false, 1⟩, ⟨"B", "A", 4, 3, true, 2⟩] "A" 10)
    (by
      unfold standingsTable
      refine (List.Perm.mem_iff (List.mergeSort_perm _ _)).mpr ?_
      decide)

example : formatScheduleResult ⟨"A", "B", some 3, some 2, some false⟩ "A" = "W 3-2" := by decide
example : formatScheduleResult ⟨"A", "B", some 3, some 2, some true⟩ "B" = "L 2-3 OT" := by decide
example : formatScheduleResult ⟨"A", "B", none, some 2, none⟩ "A" = "-" := by decide
example : injuryStatusKey (some " dtd ") (some false) = "dtd" := by decide
example : injuryStatusKey (some "LTIR (wk 3)") (some true) = "ltir" := by decide
example : injuryStatusKey none (some true) = "ir" := by decide
example : injuryStatusKey (some "out for season") (some true) = "season" := by decide
example : needLabel "starter_g" = "Starter G" := by decide
example : needLabel "weird" = "weird" := by decide
example : needKeys none = defaultNeedKeys := by decide
example : needKeys (some ⟨"T", [("top4_d", 3)]⟩) = ["top4_d"] := by decide

end HockeySim
